import Mathlib

/-
Verification of the in-process cache backend (`Memory`, package cache).

The store `Memory.items` is a `sync.Map`; it is modelled as an association
list from keys to dynamically typed slots.  Time is modelled as `Int`
instants (seconds); `time.Now()` becomes an explicit `now` argument and
`time.Time.Before` the strict order on `Int`.  Go's `(T, error)` returns
become `Except Err T`, with `Except.ok` playing the role of a `nil` error.
Operations that may mutate the store return the store after the call.
-/

namespace MemoryCache

/-- One stored cache entry: `item` in the source, a string `Value` plus an
absolute expiry instant `Expired`. -/
structure Item where
  Value : String
  Expired : Int
deriving DecidableEq, Repr

/-- A slot of `Memory.items`.  The `sync.Map` is untyped, so a slot holds
either an `*item` or, in principle, a value of some other type, which
`getItem` rejects with a type error.  `other` stands for any non-item value. -/
inductive StoredVal where
  | it (i : Item)
  | other (tag : Nat)
deriving DecidableEq, Repr

/-- Association-list model of the `sync.Map` behind `Memory.items`. -/
abbrev Store := List (String × StoredVal)

/-- The errors the memory backend produces. -/
inductive Err where
  | typeErr (k : String)
  | notExist (k : String)
  | encodingErr
  | parseErr (s : String)
  | lockUnsupported
deriving DecidableEq, Repr

/-- `sync.Map.Load`. -/
def load : Store → String → Option StoredVal
  | [], _ => none
  | (k2, v) :: rest, k => if k2 = k then some v else load rest k

/-- `sync.Map.Store`: overwrite the binding for `k`, or add it. -/
def mapStore : Store → String → StoredVal → Store
  | [], k, v => [(k, v)]
  | (k2, v2) :: rest, k, v =>
      if k2 = k then (k, v) :: rest else (k2, v2) :: mapStore rest k v

/-- `sync.Map.Delete`. -/
def mapDelete : Store → String → Store
  | [], _ => []
  | (k2, v2) :: rest, k =>
      if k2 = k then mapDelete rest k else (k2, v2) :: mapDelete rest k

/-- `Memory.getItem`: look the key up; an entry whose expiry is strictly
before `now` is deleted (read-triggered eviction) and reported absent; a
non-item slot yields `"value of %s type error"`.  Returns the Go result pair
together with the store after the call. -/
def getItem (s : Store) (now : Int) (k : String) :
    Except Err (Option Item) × Store :=
  match load s k with
  | none => (.ok none, s)
  | some (.it i) =>
      if i.Expired < now then (.ok none, mapDelete s k)
      else (.ok (some i), s)
  | some (.other _) => (.error (.typeErr k), s)

/-- `Memory.Get`: when `getItem` reports an error or no item, return the
empty string with that (possibly nil) error; otherwise return `item.Value`. -/
def Get (s : Store) (now : Int) (k : String) : Except Err String × Store :=
  match getItem s now k with
  | (.error e, s1) => (.error e, s1)
  | (.ok none, s1) => (.ok "", s1)
  | (.ok (some i), s1) => (.ok i.Value, s1)

/-- A Go value passed to `Set` as `val interface{}`.  Scalar variants cover
what the external `cast` library coerces; `unsupported` stands for a value of
a type with no canonical string form (map, struct, channel, ...). -/
inductive GoVal where
  | str (s : String)
  | int (n : Int)
  | boolean (b : Bool)
  | unsupported (tag : Nat)
deriving DecidableEq, Repr

/-- The external `cast.ToStringE` (spf13/cast), a black box outside this
repository, modelled by its documented behavior: identity on strings, decimal
rendering of integers, `true`/`false` for booleans, an error otherwise. -/
def toStringE : GoVal → Except Err String
  | .str s => .ok s
  | .int n => .ok (toString n)
  | .boolean b => .ok (if b then "true" else "false")
  | .unsupported _ => .error .encodingErr

/-- `Memory.Set`: coerce `val`; on failure return the error with the store
untouched; otherwise store `item{Value: s, Expired: now + expire}` (the TTL
is in seconds, added to `time.Now()`). -/
def Set (s : Store) (now : Int) (k : String) (val : GoVal) (expire : Int) :
    Except Err Unit × Store :=
  match toStringE val with
  | .error e => (.error e, s)
  | .ok str => (.ok (), mapStore s k (.it ⟨str, now + expire⟩))

/-- `Memory.Del` / `Memory.del`: unconditional delete, never errors. -/
def Del (s : Store) (k : String) : Except Err Unit × Store :=
  (.ok (), mapDelete s k)

/-- `Memory.HashGet`: the same body as `Get`, run on the concatenated key
`hk + key`. -/
def HashGet (s : Store) (now : Int) (hk k : String) :
    Except Err String × Store :=
  match getItem s now (hk ++ k) with
  | (.error e, s1) => (.error e, s1)
  | (.ok none, s1) => (.ok "", s1)
  | (.ok (some i), s1) => (.ok i.Value, s1)

/-- `Memory.HashDel`: `del` on the concatenated key `hk + key`. -/
def HashDel (s : Store) (hk k : String) : Except Err Unit × Store :=
  Del s (hk ++ k)

/-- Go `strconv`'s `lower(c)`: set the ASCII case bit (`c | 0x20`), as a
character code. -/
def goLower (c : Char) : Nat := c.toNat ||| 32

/-- One byte of `ParseUint`'s digit loop: `0`-`9` map to their values,
letters (through `lower`) to 10-35; anything else is a syntax error. -/
def goDigit (c : Char) : Option Nat :=
  if 48 ≤ c.toNat ∧ c.toNat ≤ 57 then some (c.toNat - 48)
  else if 97 ≤ goLower c ∧ goLower c ≤ 122 then some (goLower c - 87)
  else none

/-- `ParseUint(s, 0, 64)`'s base-0 prefix detection on the sign-stripped
string: `0b`/`0o`/`0x` (any case, with at least one following character)
select binary/octal/hex, any other leading `0` selects octal, else decimal;
returns the base and the remaining characters. -/
def baseDetect : List Char → Nat × List Char
  | '0' :: rest =>
      match rest with
      | c :: rest2 =>
          if rest2 ≠ [] ∧ goLower c = 98 then (2, rest2)
          else if rest2 ≠ [] ∧ goLower c = 111 then (8, rest2)
          else if rest2 ≠ [] ∧ goLower c = 120 then (16, rest2)
          else (8, c :: rest2)
      | [] => (8, [])
  | l => (10, l)

/-- The digit loop of `ParseUint(s, 0, 64)` after base detection: underscores
are skipped (recorded, and validated afterwards by `underscoreOK`), a byte
whose digit value reaches the base is a syntax error.  The magnitude is
accumulated unbounded: `ParseInt`'s signed range check below rejects
everything outside the int64 range, which subsumes `ParseUint`'s own uint64
overflow errors (both make `cast.ToIntE` fail). -/
def parseUintLoop (base : Nat) : List Char → Nat → Bool → Option (Nat × Bool)
  | [], n, us => some (n, us)
  | c :: cs, n, us =>
      if c = '_' then parseUintLoop base cs n true
      else
        match goDigit c with
        | none => none
        | some d =>
            if d < base then parseUintLoop base cs (n * base + d) us
            else none

/-- The scanning loop of Go `strconv.underscoreOK`: `saw` tracks the class of
the previous character (0 = start of number, 1 = digit or base prefix,
2 = underscore, 3 = other); an underscore must follow and be followed by a
digit (hex digits count only after a hex prefix), and must not end the
string. -/
def underscoreCheck (hex : Bool) : List Char → Nat → Bool
  | [], saw => saw ≠ 2
  | c :: cs, saw =>
      if (48 ≤ c.toNat ∧ c.toNat ≤ 57) ∨
          (hex ∧ 97 ≤ goLower c ∧ goLower c ≤ 102) then
        underscoreCheck hex cs 1
      else if c = '_' then
        if saw ≠ 1 then false else underscoreCheck hex cs 2
      else if saw = 2 then false
      else underscoreCheck hex cs 3

/-- Go `strconv.underscoreOK` on the sign-stripped string: strip an optional
sign, treat a `0b`/`0o`/`0x` prefix as a digit, then scan. -/
def underscoreOKGo (s : List Char) : Bool :=
  let s1 := match s with
    | c :: cs => if c = '+' ∨ c = '-' then cs else s
    | [] => s
  match s1 with
  | '0' :: c :: rest =>
      if goLower c = 98 ∨ goLower c = 111 ∨ goLower c = 120 then
        underscoreCheck (goLower c = 120) rest 1
      else underscoreCheck false s1 0
  | _ => underscoreCheck false s1 0

/-- The external `cast.ToIntE` (spf13/cast) on a string, a black box outside
this repository: it calls Go `strconv.ParseInt(s, 0, 0)` — optional sign,
base-0 prefix detection, underscore digit separators, and a signed 64-bit
range check (`mag ≥ 2^63` positive, `mag > 2^63` negative, both errors) —
and fails exactly when `ParseInt` returns a non-nil error. -/
def toIntE (s : String) : Option Int :=
  match s.toList with
  | [] => none
  | c :: cs =>
      let neg := c = '-'
      let rest := if c = '+' ∨ c = '-' then cs else c :: cs
      match rest with
      | [] => none
      | _ =>
          let bd := baseDetect rest
          match parseUintLoop bd.1 bd.2 0 false with
          | none => none
          | some (mag, us) =>
              if us ∧ ¬ underscoreOKGo rest then none
              else if neg then
                if mag > 9223372036854775808 then none
                else some (-(mag : Int))
              else
                if mag ≥ 9223372036854775808 then none
                else some (mag : Int)

/-- Go `int` (64-bit) wrap-around arithmetic: reduce into `[-2^63, 2^63)`
by an explicit remainder mod `2^64`. -/
def wrapInt64 (x : Int) : Int :=
  (x + 9223372036854775808) % 18446744073709551616 - 9223372036854775808

/-- `Memory.calculate`: read the entry via `getItem`; a `getItem` error
propagates; an absent entry gives the `"%s not exist"` error; an unparsable
value gives the cast error; otherwise write `strconv.Itoa(n + num)` back
under the same key with the expiry unchanged — `n += num` is Go `int`
(64-bit) arithmetic, so the sum wraps at `2^63`.  (The source holds only
`mutex.RLock()` for the duration, a shared read lock.) -/
def calculate (s : Store) (now : Int) (k : String) (num : Int) :
    Except Err Unit × Store :=
  match getItem s now k with
  | (.error e, s1) => (.error e, s1)
  | (.ok none, s1) => (.error (.notExist k), s1)
  | (.ok (some i), s1) =>
      match toIntE i.Value with
      | none => (.error (.parseErr i.Value), s1)
      | some n =>
          (.ok (), mapStore s1 k (.it ⟨toString (wrapInt64 (n + num)), i.Expired⟩))

/-- `Memory.Increase`: `calculate(key, 1)`. -/
def Increase (s : Store) (now : Int) (k : String) : Except Err Unit × Store :=
  calculate s now k 1

/-- `Memory.Decrease`: `calculate(key, -1)`. -/
def Decrease (s : Store) (now : Int) (k : String) : Except Err Unit × Store :=
  calculate s now k (-1)

/-- `Memory.Expire`: a `getItem` error propagates; an absent or expired entry
gives the `"%s not exist"` error; otherwise set the expiry to `now + dur`,
keeping the value. -/
def Expire (s : Store) (now : Int) (k : String) (dur : Int) :
    Except Err Unit × Store :=
  match getItem s now k with
  | (.error e, s1) => (.error e, s1)
  | (.ok none, s1) => (.error (.notExist k), s1)
  | (.ok (some i), s1) => (.ok (), mapStore s1 k (.it ⟨i.Value, now + dur⟩))

/-- `Memory.Lock`: always returns `(nil, errors.New("memory not support
lock"))` and touches nothing; the first component is the absent lock handle. -/
def Lock (s : Store) (_k : String) (_ttl : Int) :
    (Option Unit × Except Err Unit) × Store :=
  ((none, .error .lockUnsupported), s)

/-! ## Interleaving model of `calculate` under the shared read lock

`calculate` holds only `m.mutex.RLock()`, a read lock that any number of
callers hold simultaneously (the write side of the `RWMutex` is never taken
anywhere in the file), so the steps of two concurrent `calculate` calls on
the same key may interleave freely.  Each call is split at its two accesses
to the `sync.Map`: the `getItem` load and the `setItem` store. -/

/-- The program counter of one in-flight `calculate` call: not yet started;
past the load with the parsed integer and the expiry in hand; or returned. -/
inductive CalcPhase where
  | start
  | loaded (n : Int) (expd : Int)
  | done (r : Except Err Unit)
deriving Repr

/-- One atomic step of an in-flight `calculate s now k num` call: from
`start`, perform the `getItem` load (finishing early on any error); from
`loaded`, perform the `setItem` store of `Itoa(n + num)`. -/
def calcStep (now : Int) (k : String) (num : Int) :
    CalcPhase × Store → CalcPhase × Store
  | (.start, s) =>
      match getItem s now k with
      | (.error e, s1) => (.done (.error e), s1)
      | (.ok none, s1) => (.done (.error (.notExist k)), s1)
      | (.ok (some i), s1) =>
          match toIntE i.Value with
          | none => (.done (.error (.parseErr i.Value)), s1)
          | some n => (.loaded n i.Expired, s1)
  | (.loaded n expd, s) =>
      (.done (.ok ()), mapStore s k (.it ⟨toString (wrapInt64 (n + num)), expd⟩))
  | (.done r, s) => (.done r, s)

/-- Run two concurrent `Increase k` calls under an explicit schedule:
`true` steps the first caller, `false` the second. -/
def runTwo (now : Int) (k : String) :
    List Bool → CalcPhase × CalcPhase × Store → CalcPhase × CalcPhase × Store
  | [], st => st
  | b :: rest, (pA, pB, s) =>
      if b then
        let st1 := calcStep now k 1 (pA, s)
        runTwo now k rest (st1.1, pB, st1.2)
      else
        let st1 := calcStep now k 1 (pB, s)
        runTwo now k rest (pA, st1.1, st1.2)

/-! ## Dispatcher model (`Memory.Register`)

The goroutine started by `Register` runs `for message := range q`: receive a
message, apply the handler, and on a non-nil error send the message back into
the same channel with `out <- message`.  The channel is a Go channel whose
buffer capacity comes from `makeQueue`: unbuffered when `PoolNum <= 0` (the
zero-value default, `PoolNum` being a `uint`), else capacity `PoolNum`.  A
send on a Go channel succeeds immediately only when a buffer slot is free (or
a receiver is already waiting); otherwise it blocks until a receiver takes a
value.  For a single registered dispatcher, the dispatcher itself is the only
receiver of its stream's channel (`Append` only sends), so a re-enqueue send
that finds no free buffer slot — always, on an unbuffered channel — blocks
that dispatcher forever.  The channel buffer is modelled as a FIFO list
(head = next value received; a successful send appends at the back), the
handler as a stateful function returning `true` when it errors, and `closed`
records whether the channel has been closed; a `range` loop ends exactly when
the channel is closed and drained. -/

/-- Buffer capacity chosen by `Memory.makeQueue`: `make(queue)` (capacity 0)
when `PoolNum <= 0`, else `make(queue, PoolNum)`. -/
def makeQueueCap (poolNum : Nat) : Nat :=
  if poolNum ≤ 0 then 0 else poolNum

/-- The state of a single registered dispatcher: in its receive loop;
blocked forever in the re-enqueue send `out <- message` (it is the only
receiver of the channel, so nothing can ever free a slot); or stopped after
`range` ended on the closed, drained channel.  Each state carries the channel
buffer and the handler state. -/
inductive DState (M H : Type) where
  | running (channel : List M) (hstate : H)
  | blockedSend (msg : M) (channel : List M) (hstate : H)
  | stopped (channel : List M) (hstate : H)

/-- One iteration of the dispatcher loop on a channel of capacity `cap`:
with a message buffered, receive it and run the handler — on error the
re-enqueue send succeeds (appending at the back) only if a buffer slot is
free, and otherwise blocks the dispatcher forever; on success the message is
discarded.  With the buffer empty the loop stops if the channel is closed
and blocks in the receive otherwise.  `blockedSend` and `stopped` are
absorbing. -/
def dispatchStep {M H : Type} (cap : Nat) (h : H → M → Bool × H)
    (closed : Bool) : DState M H → DState M H
  | .running (msg :: rest) hs =>
      let r := h hs msg
      if r.1 then
        if rest.length < cap then .running (rest ++ [msg]) r.2
        else .blockedSend msg rest r.2
      else .running rest r.2
  | .running [] hs => if closed then .stopped [] hs else .running [] hs
  | .blockedSend m ch hs => .blockedSend m ch hs
  | .stopped ch hs => .stopped ch hs

/-- Iterate the dispatcher loop `fuel` times. -/
def dispatchRun {M H : Type} (cap : Nat) (h : H → M → Bool × H)
    (closed : Bool) : Nat → DState M H → DState M H
  | 0, st => st
  | fuel + 1, st => dispatchRun cap h closed fuel (dispatchStep cap h closed st)

/-- A handler that fails on its first invocation and succeeds afterwards; its
state counts how many times it has been invoked (= deliveries received). -/
def failOnceHandler : Nat → String → Bool × Nat :=
  fun calls _ => (calls == 0, calls + 1)

/-! ## Public-operation traces (for the store invariant)

`Connect` installs a fresh empty `sync.Map`; afterwards the only writes to
`Memory.items` are `setItem` (always an `*item`) and deletions.  A trace is a
list of public operations, each executed at an explicit instant. -/

/-- A public Item-Store operation together with its arguments. -/
inductive Op where
  | set (k : String) (v : GoVal) (ttl : Int)
  | del (k : String)
  | hashDel (hk f : String)
  | increase (k : String)
  | decrease (k : String)
  | expire (k : String) (d : Int)
  | get (k : String)
  | hashGet (hk f : String)
deriving DecidableEq, Repr

/-- The store after executing one public operation at instant `now`
(results are discarded; only the state matters here). -/
def execOp (now : Int) (s : Store) : Op → Store
  | .set k v ttl => (Set s now k v ttl).2
  | .del k => (Del s k).2
  | .hashDel hk f => (HashDel s hk f).2
  | .increase k => (Increase s now k).2
  | .decrease k => (Decrease s now k).2
  | .expire k d => (Expire s now k d).2
  | .get k => (Get s now k).2
  | .hashGet hk f => (HashGet s now hk f).2

/-- Run a trace of timestamped public operations from the store `Connect`
leaves behind (the empty map). -/
def runTrace : List (Int × Op) → Store
  | [] => []
  | (now, op) :: rest => execOp now (runTrace rest) op

/-- Whether a slot holds an `*item`. -/
def isItemVal : StoredVal → Bool
  | .it _ => true
  | .other _ => false

/-- The implicit invariant: every slot of the store holds an `*item`. -/
def wf (s : Store) : Bool :=
  s.all fun kv => isItemVal kv.2

/-! ## Map lemmas -/

theorem load_mapStore_self (s : Store) (k : String) (v : StoredVal) :
    load (mapStore s k v) k = some v := by
  induction s with
  | nil => simp [mapStore, load]
  | cons kv rest ih =>
      obtain ⟨k2, v2⟩ := kv
      by_cases h : k2 = k
      · simp [mapStore, h, load]
      · simp [mapStore, h, load, ih]

theorem load_mapDelete_self (s : Store) (k : String) :
    load (mapDelete s k) k = none := by
  induction s with
  | nil => simp [mapDelete, load]
  | cons kv rest ih =>
      obtain ⟨k2, v2⟩ := kv
      by_cases h : k2 = k
      · simp [mapDelete, h, ih]
      · simp [mapDelete, h, load, ih]

theorem wf_cons (k : String) (v : StoredVal) (rest : Store) :
    wf ((k, v) :: rest) = (isItemVal v && wf rest) := rfl

theorem load_wf (s : Store) (hs : wf s = true) (k : String) (v : StoredVal)
    (hv : load s k = some v) : isItemVal v = true := by
  induction s with
  | nil => simp [load] at hv
  | cons kv rest ih =>
      obtain ⟨k2, v2⟩ := kv
      rw [wf_cons, Bool.and_eq_true] at hs
      simp only [load] at hv
      by_cases h : k2 = k
      · rw [if_pos h] at hv
        cases hv
        exact hs.1
      · rw [if_neg h] at hv
        exact ih hs.2 hv

theorem wf_mapStore (s : Store) (k : String) (v : StoredVal)
    (hs : wf s = true) (hv : isItemVal v = true) :
    wf (mapStore s k v) = true := by
  induction s with
  | nil =>
      show wf [(k, v)] = true
      rw [wf_cons, Bool.and_eq_true]
      exact ⟨hv, rfl⟩
  | cons kv rest ih =>
      obtain ⟨k2, v2⟩ := kv
      rw [wf_cons, Bool.and_eq_true] at hs
      show wf (if k2 = k then (k, v) :: rest else (k2, v2) :: mapStore rest k v) = true
      by_cases h : k2 = k
      · rw [if_pos h, wf_cons, Bool.and_eq_true]
        exact ⟨hv, hs.2⟩
      · rw [if_neg h, wf_cons, Bool.and_eq_true]
        exact ⟨hs.1, ih hs.2⟩

theorem wf_mapDelete (s : Store) (k : String) (hs : wf s = true) :
    wf (mapDelete s k) = true := by
  induction s with
  | nil => rfl
  | cons kv rest ih =>
      obtain ⟨k2, v2⟩ := kv
      rw [wf_cons, Bool.and_eq_true] at hs
      show wf (if k2 = k then mapDelete rest k else (k2, v2) :: mapDelete rest k) = true
      by_cases h : k2 = k
      · rw [if_pos h]
        exact ih hs.2
      · rw [if_neg h, wf_cons, Bool.and_eq_true]
        exact ⟨hs.1, ih hs.2⟩

/-! ## `getItem` lemmas -/

theorem getItem_ok (s : Store) (now : Int) (k : String) (hs : wf s = true) :
    ∃ o, (getItem s now k).1 = Except.ok o := by
  cases hv : load s k with
  | none => exact ⟨none, by simp [getItem, hv]⟩
  | some v =>
      cases v with
      | it i =>
          by_cases h : i.Expired < now
          · exact ⟨none, by simp [getItem, hv, h]⟩
          · exact ⟨some i, by simp [getItem, hv, h]⟩
      | other t =>
          have := load_wf s hs k _ hv
          simp [isItemVal] at this

theorem getItem_snd_wf (s : Store) (now : Int) (k : String)
    (hs : wf s = true) : wf (getItem s now k).2 = true := by
  cases hv : load s k with
  | none => simpa [getItem, hv] using hs
  | some v =>
      cases v with
      | it i =>
          by_cases h : i.Expired < now
          · simpa [getItem, hv, h] using wf_mapDelete s k hs
          · simpa [getItem, hv, h] using hs
      | other t => simpa [getItem, hv] using hs

theorem Get_snd (s : Store) (now : Int) (k : String) :
    (Get s now k).2 = (getItem s now k).2 := by
  unfold Get
  rcases hg : getItem s now k with ⟨r, s1⟩
  match r with
  | .error e => rfl
  | .ok none => rfl
  | .ok (some i) => rfl

theorem HashGet_eq_Get (s : Store) (now : Int) (hk k : String) :
    HashGet s now hk k = Get s now (hk ++ k) := rfl

/-! ## Preservation of the store invariant -/

theorem calculate_snd_wf (s : Store) (now : Int) (k : String) (num : Int)
    (hs : wf s = true) : wf (calculate s now k num).2 = true := by
  have h2 := getItem_snd_wf s now k hs
  unfold calculate
  split
  next e s1 heq =>
    rw [heq] at h2
    exact h2
  next s1 heq =>
    rw [heq] at h2
    exact h2
  next i s1 heq =>
    rw [heq] at h2
    split
    next ht => exact h2
    next n ht => exact wf_mapStore s1 k _ h2 rfl

theorem Expire_snd_wf (s : Store) (now : Int) (k : String) (d : Int)
    (hs : wf s = true) : wf (Expire s now k d).2 = true := by
  have h2 := getItem_snd_wf s now k hs
  unfold Expire
  split
  next e s1 heq =>
    rw [heq] at h2
    exact h2
  next s1 heq =>
    rw [heq] at h2
    exact h2
  next i s1 heq =>
    rw [heq] at h2
    exact wf_mapStore s1 k _ h2 rfl

theorem execOp_wf (now : Int) (s : Store) (op : Op) (hs : wf s = true) :
    wf (execOp now s op) = true := by
  cases op with
  | set k v ttl =>
      show wf (Set s now k v ttl).2 = true
      unfold Set
      split
      next e heq => exact hs
      next strv heq => exact wf_mapStore s k _ hs rfl
  | del k => exact wf_mapDelete s k hs
  | hashDel hk f => exact wf_mapDelete s (hk ++ f) hs
  | increase k => exact calculate_snd_wf s now k 1 hs
  | decrease k => exact calculate_snd_wf s now k (-1) hs
  | expire k d => exact Expire_snd_wf s now k d hs
  | get k =>
      show wf (Get s now k).2 = true
      rw [Get_snd]
      exact getItem_snd_wf s now k hs
  | hashGet hk f =>
      show wf (HashGet s now hk f).2 = true
      rw [HashGet_eq_Get, Get_snd]
      exact getItem_snd_wf s now (hk ++ f) hs

theorem runTrace_wf (trace : List (Int × Op)) : wf (runTrace trace) = true := by
  induction trace with
  | nil => rfl
  | cons p rest ih =>
      obtain ⟨now, op⟩ := p
      exact execOp_wf now (runTrace rest) op ih

/-! ## No public operation can produce the type error on a wf store -/

theorem Get_ok_of_wf (s : Store) (now : Int) (k : String) (hs : wf s = true) :
    ∃ v, (Get s now k).1 = Except.ok v := by
  obtain ⟨o, ho⟩ := getItem_ok s now k hs
  unfold Get
  split
  next e s1 heq =>
    rw [heq] at ho
    simp at ho
  next s1 heq => exact ⟨"", rfl⟩
  next i s1 heq => exact ⟨i.Value, rfl⟩

theorem calculate_no_typeErr (s : Store) (now : Int) (k k2 : String)
    (num : Int) (hs : wf s = true) :
    (calculate s now k num).1 ≠ Except.error (Err.typeErr k2) := by
  obtain ⟨o, ho⟩ := getItem_ok s now k hs
  unfold calculate
  split
  next e s1 heq =>
    rw [heq] at ho
    simp at ho
  next s1 heq => simp
  next i s1 heq =>
    split
    next ht => simp
    next n ht => simp

theorem Expire_no_typeErr (s : Store) (now : Int) (k k2 : String) (d : Int)
    (hs : wf s = true) :
    (Expire s now k d).1 ≠ Except.error (Err.typeErr k2) := by
  obtain ⟨o, ho⟩ := getItem_ok s now k hs
  unfold Expire
  split
  next e s1 heq =>
    rw [heq] at ho
    simp at ho
  next s1 heq => simp
  next i s1 heq => simp

/-! ## Branch characterizations of the public operations -/

theorem getItem_absent (s : Store) (now : Int) (k : String)
    (h : load s k = none) : getItem s now k = (.ok none, s) := by
  unfold getItem
  rw [h]

theorem getItem_live (s : Store) (now : Int) (k : String) (i : Item)
    (h : load s k = some (.it i)) (hl : ¬ i.Expired < now) :
    getItem s now k = (.ok (some i), s) := by
  unfold getItem
  rw [h]
  simp [hl]

theorem getItem_expired (s : Store) (now : Int) (k : String) (i : Item)
    (h : load s k = some (.it i)) (hl : i.Expired < now) :
    getItem s now k = (.ok none, mapDelete s k) := by
  unfold getItem
  rw [h]
  simp [hl]

theorem Get_absent (s : Store) (now : Int) (k : String)
    (h : load s k = none) : Get s now k = (.ok "", s) := by
  unfold Get
  rw [getItem_absent s now k h]

theorem Get_live (s : Store) (now : Int) (k : String) (i : Item)
    (h : load s k = some (.it i)) (hl : ¬ i.Expired < now) :
    Get s now k = (.ok i.Value, s) := by
  unfold Get
  rw [getItem_live s now k i h hl]

theorem Get_expired (s : Store) (now : Int) (k : String) (i : Item)
    (h : load s k = some (.it i)) (hl : i.Expired < now) :
    Get s now k = (.ok "", mapDelete s k) := by
  unfold Get
  rw [getItem_expired s now k i h hl]

theorem calculate_absent (s : Store) (now : Int) (k : String) (num : Int)
    (h : load s k = none) :
    calculate s now k num = (.error (.notExist k), s) := by
  unfold calculate
  rw [getItem_absent s now k h]

theorem calculate_expired (s : Store) (now : Int) (k : String) (i : Item)
    (num : Int) (h : load s k = some (.it i)) (hl : i.Expired < now) :
    calculate s now k num = (.error (.notExist k), mapDelete s k) := by
  unfold calculate
  rw [getItem_expired s now k i h hl]

theorem calculate_parseFail (s : Store) (now : Int) (k : String) (i : Item)
    (num : Int) (h : load s k = some (.it i)) (hl : ¬ i.Expired < now)
    (hp : toIntE i.Value = none) :
    calculate s now k num = (.error (.parseErr i.Value), s) := by
  unfold calculate
  simp only [getItem_live s now k i h hl, hp]

theorem calculate_ok (s : Store) (now : Int) (k : String) (i : Item)
    (num n : Int) (h : load s k = some (.it i)) (hl : ¬ i.Expired < now)
    (hp : toIntE i.Value = some n) :
    calculate s now k num =
      (.ok (), mapStore s k (.it ⟨toString (wrapInt64 (n + num)), i.Expired⟩)) := by
  unfold calculate
  simp only [getItem_live s now k i h hl, hp]

theorem Expire_absent (s : Store) (now : Int) (k : String) (d : Int)
    (h : load s k = none) :
    Expire s now k d = (.error (.notExist k), s) := by
  unfold Expire
  rw [getItem_absent s now k h]

theorem Expire_expired (s : Store) (now : Int) (k : String) (i : Item)
    (d : Int) (h : load s k = some (.it i)) (hl : i.Expired < now) :
    Expire s now k d = (.error (.notExist k), mapDelete s k) := by
  unfold Expire
  rw [getItem_expired s now k i h hl]

theorem Expire_live (s : Store) (now : Int) (k : String) (i : Item)
    (d : Int) (h : load s k = some (.it i)) (hl : ¬ i.Expired < now) :
    Expire s now k d = (.ok (), mapStore s k (.it ⟨i.Value, now + d⟩)) := by
  unfold Expire
  rw [getItem_live s now k i h hl]

/-! ## The claims -/

/-- C1, counterexample: the claim says `Get` fails with a NotFound error on an
absent or expired key, but `getItem` returns `(nil, nil)` in both cases, so
`Get` returns the empty string with a nil error (`Except.ok`): on the empty
store, and on a store whose entry for "k" expired at instant 0 read at
instant 5, `Get` does not fail. -/
theorem C1_counterexample :
    (Get [] 5 "k").1 = Except.ok "" ∧
    (Get [("k", StoredVal.it ⟨"v", 0⟩)] 5 "k").1 = Except.ok "" :=
  ⟨rfl, rfl⟩

/-- C1, amended: `Get(key)` returns the stored string value with a nil error
when a live entry exists; when the key is absent or its expiry instant has
passed it returns the empty string with a nil error (not a NotFound error);
in the expired case the entry is also physically removed by that read, so a
subsequent `Get` on the same key again returns the empty string with a nil
error. -/
theorem C1_get_amended (s : Store) (now now2 : Int) (k : String) (i : Item) :
    (load s k = some (.it i) → ¬ i.Expired < now →
      Get s now k = (.ok i.Value, s)) ∧
    (load s k = none → Get s now k = (.ok "", s)) ∧
    (load s k = some (.it i) → i.Expired < now →
      Get s now k = (.ok "", mapDelete s k) ∧
      Get (mapDelete s k) now2 k = (.ok "", mapDelete s k)) :=
  ⟨fun h hl => Get_live s now k i h hl,
   fun h => Get_absent s now k h,
   fun h hl => ⟨Get_expired s now k i h hl,
     Get_absent (mapDelete s k) now2 k (load_mapDelete_self s k)⟩⟩

/-- Witness for C1: the three branches of `C1_get_amended` exercised on
concrete stores (a live entry, the empty store, and an expired entry). -/
theorem C1_witness :
    Get [("k", StoredVal.it ⟨"v", 10⟩)] 5 "k" =
      (.ok "v", [("k", StoredVal.it ⟨"v", 10⟩)]) ∧
    Get [] 5 "k" = (.ok "", []) ∧
    (Get [("k", StoredVal.it ⟨"v", 0⟩)] 5 "k" = (.ok "", []) ∧
      Get [] 6 "k" = (.ok "", [])) :=
  ⟨(C1_get_amended [("k", StoredVal.it ⟨"v", 10⟩)] 5 6 "k" ⟨"v", 10⟩).1 rfl
      (by decide),
   (C1_get_amended [] 5 6 "k" ⟨"v", 10⟩).2.1 rfl,
   (C1_get_amended [("k", StoredVal.it ⟨"v", 0⟩)] 5 6 "k" ⟨"v", 0⟩).2.2 rfl
      (by decide)⟩

/-- C2: the code violates the claim.  `calculate` holds only the shared read
lock `mutex.RLock()` for its read-compute-write sequence (the write side of
the `RWMutex` is never taken anywhere in the file), so any number of
concurrent callers hold the lock simultaneously and their steps interleave.
Under the schedule in which both of two concurrent `Increase("k")` calls
perform their `getItem` load before either performs its `setItem` store, on a
store holding `"0"` both calls return success yet the final value is `"1"`,
not the `"2"` linearizability requires: one update is lost and the
read-compute-write sequences were not mutually exclusive. -/
theorem C2_lost_update :
    runTwo 0 "k" [true, false, true, false]
        (.start, .start, [("k", StoredVal.it ⟨"0", 100⟩)]) =
      (.done (.ok ()), .done (.ok ()), [("k", StoredVal.it ⟨"1", 100⟩)]) ∧
    (Get [("k", StoredVal.it ⟨"1", 100⟩)] 0 "k").1 = Except.ok "1" ∧
    ("1" : String) ≠ "2" :=
  ⟨rfl, rfl, by decide⟩

/-- C3: for every key, value whose string coercion succeeds, and TTL `t > 0`,
`Set` succeeds with no error, stores the coerced string with expiry
`now + t` overwriting any existing entry for the key, and a `Get` at any
instant up to the expiry instant returns the coerced string with no error. -/
theorem C3_set_get_roundtrip (s : Store) (now now2 : Int) (k : String)
    (v : GoVal) (t : Int) (strv : String) (hv : toStringE v = .ok strv)
    (_ht : 0 < t) (hnow : now2 ≤ now + t) :
    (Set s now k v t).1 = .ok () ∧
    (Set s now k v t).2 = mapStore s k (.it ⟨strv, now + t⟩) ∧
    load (Set s now k v t).2 k = some (.it ⟨strv, now + t⟩) ∧
    Get (Set s now k v t).2 now2 k = (.ok strv, (Set s now k v t).2) := by
  have hset : Set s now k v t = (.ok (), mapStore s k (.it ⟨strv, now + t⟩)) := by
    unfold Set
    rw [hv]
  have hload : load (mapStore s k (.it ⟨strv, now + t⟩)) k =
      some (.it ⟨strv, now + t⟩) := load_mapStore_self s k _
  rw [hset]
  exact ⟨rfl, rfl, hload,
    Get_live _ now2 k _ hload (not_lt.mpr hnow)⟩

/-- Witness for C3 on a key that already holds an older entry, read at the
last instant before expiry. -/
theorem C3_witness :
    (Set [("k", StoredVal.it ⟨"old", 99⟩)] 0 "k" (.str "hello") 60).1 =
      .ok () ∧
    (Set [("k", StoredVal.it ⟨"old", 99⟩)] 0 "k" (.str "hello") 60).2 =
      mapStore [("k", StoredVal.it ⟨"old", 99⟩)] "k" (.it ⟨"hello", 0 + 60⟩) ∧
    load (Set [("k", StoredVal.it ⟨"old", 99⟩)] 0 "k"
        (.str "hello") 60).2 "k" = some (.it ⟨"hello", 0 + 60⟩) ∧
    Get (Set [("k", StoredVal.it ⟨"old", 99⟩)] 0 "k"
        (.str "hello") 60).2 60 "k" =
      (.ok "hello",
        (Set [("k", StoredVal.it ⟨"old", 99⟩)] 0 "k" (.str "hello") 60).2) :=
  C3_set_get_roundtrip [("k", StoredVal.it ⟨"old", 99⟩)] 0 60 "k"
    (.str "hello") 60 "hello" rfl (by decide) (by decide)

/-- C4, counterexample: the claim says `Increase` stores the decimal string
of the parsed integer plus 1, but `n += num` is wrapping 64-bit Go `int`
arithmetic: on a stored value of `9223372036854775807` (MaxInt64, which
parses), `Increase` succeeds and stores `"-9223372036854775808"`, not the
`"9223372036854775808"` the claim's unbounded plus-1 demands. -/
theorem C4_counterexample :
    Increase [("k", StoredVal.it ⟨"9223372036854775807", 9⟩)] 0 "k" =
      (.ok (), [("k", StoredVal.it ⟨"-9223372036854775808", 9⟩)]) ∧
    toIntE "9223372036854775807" = some 9223372036854775807 ∧
    toString ((9223372036854775807 : Int) + 1) = "9223372036854775808" ∧
    ("-9223372036854775808" : String) ≠ "9223372036854775808" :=
  ⟨rfl, rfl, rfl, by decide⟩

/-- C4, amended: `Increase`/`Decrease` fail with the not-exist error when the
key is absent or expired, fail with the cast error when the stored value does
not parse as an integer (under `strconv.ParseInt` base-0 syntax and 64-bit
range), and otherwise store the decimal string of the parsed integer plus one
(resp. minus one) computed in wrapping 64-bit signed arithmetic, under the
same key with the expiry timestamp unchanged; the spec's counter scenario
(`Set("ctr","10",60)`, `Increase`, twice `Decrease`) runs as stated. -/
theorem C4_counter_ops (s : Store) (now : Int) (k : String) (i : Item)
    (n : Int) :
    (load s k = none → (Increase s now k).1 = .error (.notExist k) ∧
      (Decrease s now k).1 = .error (.notExist k)) ∧
    (load s k = some (.it i) → i.Expired < now →
      (Increase s now k).1 = .error (.notExist k) ∧
      (Decrease s now k).1 = .error (.notExist k)) ∧
    (load s k = some (.it i) → ¬ i.Expired < now → toIntE i.Value = none →
      (Increase s now k).1 = .error (.parseErr i.Value) ∧
      (Decrease s now k).1 = .error (.parseErr i.Value)) ∧
    (load s k = some (.it i) → ¬ i.Expired < now → toIntE i.Value = some n →
      Increase s now k =
        (.ok (), mapStore s k (.it ⟨toString (wrapInt64 (n + 1)), i.Expired⟩)) ∧
      Decrease s now k =
        (.ok (), mapStore s k (.it ⟨toString (wrapInt64 (n - 1)), i.Expired⟩))) ∧
    ((Get (Increase (Set [] 0 "ctr" (.str "10") 60).2 0 "ctr").2 0 "ctr").1 =
      Except.ok "11" ∧
    (Get (Decrease (Decrease (Increase (Set [] 0 "ctr" (.str "10") 60).2
        0 "ctr").2 0 "ctr").2 0 "ctr").2 0 "ctr").1 = Except.ok "9") := by
  refine ⟨?_, ?_, ?_, ?_, rfl, rfl⟩
  · intro h
    rw [show (Increase s now k).1 = (calculate s now k 1).1 from rfl,
      show (Decrease s now k).1 = (calculate s now k (-1)).1 from rfl,
      calculate_absent s now k 1 h, calculate_absent s now k (-1) h]
    exact ⟨rfl, rfl⟩
  · intro h hl
    rw [show (Increase s now k).1 = (calculate s now k 1).1 from rfl,
      show (Decrease s now k).1 = (calculate s now k (-1)).1 from rfl,
      calculate_expired s now k i 1 h hl, calculate_expired s now k i (-1) h hl]
    exact ⟨rfl, rfl⟩
  · intro h hl hp
    rw [show (Increase s now k).1 = (calculate s now k 1).1 from rfl,
      show (Decrease s now k).1 = (calculate s now k (-1)).1 from rfl,
      calculate_parseFail s now k i 1 h hl hp,
      calculate_parseFail s now k i (-1) h hl hp]
    exact ⟨rfl, rfl⟩
  · intro h hl hp
    constructor
    · exact calculate_ok s now k i 1 n h hl hp
    · have hn : n + -1 = n - 1 := by ring
      rw [show Decrease s now k = calculate s now k (-1) from rfl,
        calculate_ok s now k i (-1) n h hl hp, hn]

/-- Witness for C4: the four branches of `C4_counter_ops` exercised on
concrete stores (absent key, expired entry, non-numeric value, numeric
value). -/
theorem C4_witness :
    ((Increase [] 0 "k").1 = .error (.notExist "k") ∧
      (Decrease [] 0 "k").1 = .error (.notExist "k")) ∧
    ((Increase [("k", StoredVal.it ⟨"7", 0⟩)] 5 "k").1 =
        .error (.notExist "k") ∧
      (Decrease [("k", StoredVal.it ⟨"7", 0⟩)] 5 "k").1 =
        .error (.notExist "k")) ∧
    ((Increase [("k", StoredVal.it ⟨"abc", 9⟩)] 0 "k").1 =
        .error (.parseErr "abc") ∧
      (Decrease [("k", StoredVal.it ⟨"abc", 9⟩)] 0 "k").1 =
        .error (.parseErr "abc")) ∧
    (Increase [("k", StoredVal.it ⟨"7", 9⟩)] 0 "k" =
        (.ok (), mapStore [("k", StoredVal.it ⟨"7", 9⟩)] "k"
          (.it ⟨toString (wrapInt64 (7 + 1 : Int)), 9⟩)) ∧
      Decrease [("k", StoredVal.it ⟨"7", 9⟩)] 0 "k" =
        (.ok (), mapStore [("k", StoredVal.it ⟨"7", 9⟩)] "k"
          (.it ⟨toString (wrapInt64 (7 - 1 : Int)), 9⟩))) :=
  ⟨(C4_counter_ops [] 0 "k" ⟨"7", 0⟩ 7).1 rfl,
   (C4_counter_ops [("k", StoredVal.it ⟨"7", 0⟩)] 5 "k" ⟨"7", 0⟩ 7).2.1 rfl
      (by decide),
   (C4_counter_ops [("k", StoredVal.it ⟨"abc", 9⟩)] 0 "k" ⟨"abc", 9⟩ 7).2.2.1
      rfl (by decide) rfl,
   (C4_counter_ops [("k", StoredVal.it ⟨"7", 9⟩)] 0 "k" ⟨"7", 9⟩ 7).2.2.2.1
      rfl (by decide) rfl⟩

/-- C5: `Expire(key, dur)` fails with the not-exist error when the key is
absent or its entry is already expired (the read having also evicted the
stale entry), and otherwise rewrites the entry under the same key with expiry
`now + dur` and the stored value unchanged. -/
theorem C5_expire (s : Store) (now : Int) (k : String) (i : Item) (d : Int) :
    (load s k = none → Expire s now k d = (.error (.notExist k), s)) ∧
    (load s k = some (.it i) → i.Expired < now →
      Expire s now k d = (.error (.notExist k), mapDelete s k)) ∧
    (load s k = some (.it i) → ¬ i.Expired < now →
      Expire s now k d = (.ok (), mapStore s k (.it ⟨i.Value, now + d⟩))) :=
  ⟨fun h => Expire_absent s now k d h,
   fun h hl => Expire_expired s now k i d h hl,
   fun h hl => Expire_live s now k i d h hl⟩

/-- Witness for C5: the three branches of `C5_expire` exercised on concrete
stores (absent key, expired entry, live entry). -/
theorem C5_witness :
    Expire [] 0 "k" 100 = (.error (.notExist "k"), []) ∧
    Expire [("k", StoredVal.it ⟨"v", 0⟩)] 5 "k" 100 =
      (.error (.notExist "k"), []) ∧
    Expire [("k", StoredVal.it ⟨"v", 10⟩)] 5 "k" 100 =
      (.ok (), mapStore [("k", StoredVal.it ⟨"v", 10⟩)] "k"
        (.it ⟨"v", 5 + 100⟩)) :=
  ⟨(C5_expire [] 0 "k" ⟨"v", 0⟩ 100).1 rfl,
   (C5_expire [("k", StoredVal.it ⟨"v", 0⟩)] 5 "k" ⟨"v", 0⟩ 100).2.1 rfl
      (by decide),
   (C5_expire [("k", StoredVal.it ⟨"v", 10⟩)] 5 "k" ⟨"v", 10⟩ 100).2.2 rfl
      (by decide)⟩

/-- C6: hash operations are syntactic sugar over the flat key space:
`HashGet hk f` returns exactly the same result and leaves exactly the same
store as `Get` on the concatenated key `hk ++ f`, `HashDel hk f` coincides
with `Del` on `hk ++ f`, and the spec's aliasing scenario
(`Set("a","1",60)` then `HashGet("a","")` returns `"1"`) holds. -/
theorem C6_hash_ops (s : Store) (now : Int) (hk f : String) :
    HashGet s now hk f = Get s now (hk ++ f) ∧
    HashDel s hk f = Del s (hk ++ f) ∧
    (HashGet (Set [] 0 "a" (.str "1") 60).2 0 "a" "").1 = Except.ok "1" :=
  ⟨HashGet_eq_Get s now hk f, rfl, rfl⟩

/-- C7: `Set` fails exactly when the string coercion of the value fails, in
which case it returns the coercion error and leaves the store completely
unchanged; when the coercion succeeds `Set` always succeeds. -/
theorem C7_set_encoding (s : Store) (now : Int) (k : String) (v : GoVal)
    (t : Int) (e : Err) (strv : String) :
    (toStringE v = .error e → Set s now k v t = (.error e, s)) ∧
    (toStringE v = .ok strv → (Set s now k v t).1 = .ok ()) := by
  constructor
  · intro h
    unfold Set
    rw [h]
  · intro h
    unfold Set
    rw [h]

/-- Witness for C7: a value with no canonical string form fails and leaves
the store untouched; a string value succeeds. -/
theorem C7_witness :
    Set [("k", StoredVal.it ⟨"v", 9⟩)] 0 "k" (.unsupported 0) 60 =
      (.error .encodingErr, [("k", StoredVal.it ⟨"v", 9⟩)]) ∧
    (Set [] 0 "k" (.str "x") 60).1 = .ok () :=
  ⟨(C7_set_encoding [("k", StoredVal.it ⟨"v", 9⟩)] 0 "k" (.unsupported 0) 60
      .encodingErr "x").1 rfl,
   (C7_set_encoding [] 0 "k" (.str "x") 60 .encodingErr "x").2 rfl⟩

/-- C8: the code violates the claim in its default configuration.  The
dispatcher's re-enqueue is `out <- message` on the very channel it ranges
over, and `makeQueue` returns an unbuffered channel when `PoolNum <= 0` (the
zero-value default); with a single registration the dispatcher is the only
receiver (`Append` only sends), so the first handler error blocks the
dispatcher forever in that send: the message is delivered once, never
re-enqueued, and a fail-once-then-succeed handler never receives it twice.
The theorem evaluates the model at this failing input — after one step, and
still after ten, the dispatcher is blocked with the handler having been
invoked exactly once — then records the discard/stop/block step behavior and
that with a buffered channel (`PoolNum = 1`) the claimed exactly-twice
delivery does occur. -/
theorem C8_dispatcher_deadlock (M H : Type) (h : H → M → Bool × H)
    (cap : Nat) (closed : Bool) (msg : M) (rest : List M) (hs : H) :
    makeQueueCap 0 = 0 ∧
    dispatchRun 0 failOnceHandler true 1 (.running ["m0"] 0) =
      DState.blockedSend "m0" [] 1 ∧
    dispatchRun 0 failOnceHandler true 10 (.running ["m0"] 0) =
      DState.blockedSend "m0" [] 1 ∧
    dispatchStep cap h closed (.running (msg :: rest) hs) =
      (if (h hs msg).1 then
        (if rest.length < cap then DState.running (rest ++ [msg]) (h hs msg).2
         else DState.blockedSend msg rest (h hs msg).2)
       else DState.running rest (h hs msg).2) ∧
    dispatchStep cap h true (.running [] hs) = DState.stopped [] hs ∧
    dispatchStep cap h false (.running [] hs) = DState.running [] hs ∧
    dispatchStep cap h closed (.blockedSend msg rest hs) =
      DState.blockedSend msg rest hs ∧
    makeQueueCap 1 = 1 ∧
    dispatchRun 1 failOnceHandler true 3 (.running ["m0"] 0) =
      DState.stopped [] 2 :=
  ⟨rfl, rfl, rfl, rfl, rfl, rfl, rfl, rfl, rfl⟩

/-- C9: `Lock` always fails with the unsupported-operation error, returns no
lock handle, and leaves the store untouched, for every key and TTL. -/
theorem C9_lock (s : Store) (k : String) (ttl : Int) :
    Lock s k ttl = ((none, .error .lockUnsupported), s) :=
  rfl

/-- C10: starting from the empty store `Connect` installs, every slot written
by any sequence of public operations (at arbitrary instants) holds an
`*item`, so the type-error branch of `getItem` is unreachable: `Get`,
`HashGet`, `Increase`, `Decrease` and `Expire` never return the
`"value of %s type error"` error on any such store. -/
theorem C10_items_invariant (trace : List (Int × Op)) (now : Int)
    (k hk f k2 : String) (d : Int) :
    wf (runTrace trace) = true ∧
    (Get (runTrace trace) now k).1 ≠ Except.error (Err.typeErr k2) ∧
    (HashGet (runTrace trace) now hk f).1 ≠ Except.error (Err.typeErr k2) ∧
    (Increase (runTrace trace) now k).1 ≠ Except.error (Err.typeErr k2) ∧
    (Decrease (runTrace trace) now k).1 ≠ Except.error (Err.typeErr k2) ∧
    (Expire (runTrace trace) now k d).1 ≠ Except.error (Err.typeErr k2) := by
  have hw := runTrace_wf trace
  refine ⟨hw, ?_, ?_, calculate_no_typeErr _ now k k2 1 hw,
    calculate_no_typeErr _ now k k2 (-1) hw,
    Expire_no_typeErr _ now k k2 d hw⟩
  · obtain ⟨v, hv⟩ := Get_ok_of_wf (runTrace trace) now k hw
    rw [hv]
    simp
  · obtain ⟨v, hv⟩ := Get_ok_of_wf (runTrace trace) now (hk ++ f) hw
    rw [HashGet_eq_Get, hv]
    simp

end MemoryCache
